import Mathlib

/-!
Verification development for the GlassBox token-risk backend (`api/check.js`
and its iterations under `src/unnamed/`).

The JavaScript source is shallowly embedded:
* account data (a `Buffer` of bytes) becomes `List ℕ` with each entry < 256;
* JavaScript `BigInt` arithmetic becomes `ℕ` (with `/` the flooring division,
  exactly as `BigInt` division truncates on non-negative values);
* JavaScript `number` values used for percentages, UI amounts, reserves and
  USD metrics become `ℚ` (the claims under study are order/selection
  properties, for which exact arithmetic is the intended reading); a
  `number` that may be `NaN` is modelled by the dedicated type `JsNum`;
* `null`/absent values become `Option`;
* the in-place stable `Array.sort` becomes `List.insertionSort` (stable,
  and with the same comparator direction).

Namespaces mirror the source variants:
* `Glassbox`   – the `DataView`-based `parseMintAccount` shared verbatim by
  `src/api/check.js` (lines 38–72), `src/unnamed/part_000`, `part_004`,
  `part_009` and `part_010` (which writes the same value as
  `high * 2^32 + low`);
* `GlassboxV2` – the length-guarded `parseMintAccount` of the v2 rebuild
  (`src/api/check.js` lines 483–499 and `src/unnamed/part_003` lines 42–58);
* `V1`         – the first handler in `src/api/check.js` (lines 155–351);
* `P3`         – the handler of `src/unnamed/part_003`;
* `P4`         – the handler of `src/unnamed/part_004` (the most complete
  iteration: LP detection, liquidity-truth classifier, stablecoin override);
* `P10`        – the handler of `src/unnamed/part_010` (the `scamScore`);
* `CheckFinal` – `buildLiquidityTruth` of the last handler in
  `src/api/check.js` (lines 1119–1184);
* `Spec`       – reference definitions written from the specification's and
  claims' own words, used for refinement comparisons.
-/

namespace Glassbox

/-- Little-endian 32-bit read at `off`, as `DataView.getUint32(off, true)`
does on a byte buffer; out-of-range bytes read as 0 (the enclosing parser
guards the range). -/
def u32le (bytes : List ℕ) (off : ℕ) : ℕ :=
  bytes.getD off 0 + bytes.getD (off + 1) 0 * 256 +
    bytes.getD (off + 2) 0 * 256 ^ 2 + bytes.getD (off + 3) 0 * 256 ^ 3

/-- Little-endian 64-bit read at `off`, as `Buffer.readBigUInt64LE` does. -/
def u64le (bytes : List ℕ) (off : ℕ) : ℕ :=
  bytes.getD off 0 + bytes.getD (off + 1) 0 * 256 +
    bytes.getD (off + 2) 0 * 256 ^ 2 + bytes.getD (off + 3) 0 * 256 ^ 3 +
    bytes.getD (off + 4) 0 * 256 ^ 4 + bytes.getD (off + 5) 0 * 256 ^ 5 +
    bytes.getD (off + 6) 0 * 256 ^ 6 + bytes.getD (off + 7) 0 * 256 ^ 7

/-- The record produced by `parseMintAccount` (`supply` is kept as an exact
natural number; the JavaScript code stores `supplyBig.toString()`, a lossless
decimal rendering of the same `BigInt`). -/
structure MintRecord where
  supply : ℕ
  decimals : ℕ
  hasMintAuthority : Bool
  hasFreezeAuthority : Bool
  deriving DecidableEq, Repr

/-- `parseMintAccount` of `src/api/check.js` lines 38–72 (identical in
`part_000`, `part_004`, `part_009`; `part_010` computes the same supply as
`BigInt(high) * 2^32 + BigInt(low)`).  The function performs no explicit
length check; a `DataView.getUint32` read throws exactly when the buffer is
shorter than `offset + 4`, and the largest read starts at offset 46, so the
JavaScript function throws precisely for inputs shorter than 50 bytes and
returns a record for every longer input.  `none` models the throw. -/
def parseMintAccount (bytes : List ℕ) : Option MintRecord :=
  if 50 ≤ bytes.length then
    some { supply := u32le bytes 36 + u32le bytes 40 * 2 ^ 32,
           decimals := bytes.getD 44 0,
           hasMintAuthority := u32le bytes 0 != 0,
           hasFreezeAuthority := u32le bytes 46 != 0 }
  else none

end Glassbox

namespace GlassboxV2

/-- `parseMintAccount` of the v2 rebuild (`src/api/check.js` lines 483–499,
`src/unnamed/part_003` lines 42–58): explicit guard
`if (buf.length < 82) throw new Error("Mint account data too short")`
(the specification's `MalformedAccountData`), then a direct
`readBigUInt64LE(36)` for the supply.  `none` models the throw. -/
def parseMintAccount (bytes : List ℕ) : Option Glassbox.MintRecord :=
  if bytes.length < 82 then none
  else
    some { supply := Glassbox.u64le bytes 36,
           decimals := bytes.getD 44 0,
           hasMintAuthority := Glassbox.u32le bytes 0 != 0,
           hasFreezeAuthority := Glassbox.u32le bytes 48 != 0 }

end GlassboxV2

namespace Glassbox

lemma getD_lt_256 {bytes : List ℕ} (hb : ∀ b ∈ bytes, b < 256)
    {i : ℕ} (hi : i < bytes.length) : bytes.getD i 0 < 256 := by
  rw [List.getD_eq_getElem bytes 0 hi]
  exact hb _ (List.getElem_mem hi)

lemma u64le_lt {bytes : List ℕ} (hb : ∀ b ∈ bytes, b < 256)
    (off : ℕ) (hoff : off + 8 ≤ bytes.length) : u64le bytes off < 2 ^ 64 := by
  have h0 := getD_lt_256 hb (i := off) (by omega)
  have h1 := getD_lt_256 hb (i := off + 1) (by omega)
  have h2 := getD_lt_256 hb (i := off + 2) (by omega)
  have h3 := getD_lt_256 hb (i := off + 3) (by omega)
  have h4 := getD_lt_256 hb (i := off + 4) (by omega)
  have h5 := getD_lt_256 hb (i := off + 5) (by omega)
  have h6 := getD_lt_256 hb (i := off + 6) (by omega)
  have h7 := getD_lt_256 hb (i := off + 7) (by omega)
  unfold u64le
  nlinarith [h0, h1, h2, h3, h4, h5, h6, h7]

lemma u32le_add_shift (bytes : List ℕ) :
    u32le bytes 36 + u32le bytes 40 * 2 ^ 32 = u64le bytes 36 := by
  unfold u32le u64le
  norm_num
  ring

end Glassbox

/-- C1. For every mint-account input of at least 82 bytes, the decoder
returns a supply equal to the unsigned 64-bit little-endian integer stored at
bytes [36..44): the `DataView` decoder reconstructs it exactly as
`high * 2^32 + low` from the two 32-bit little-endian halves in
arbitrary-precision (`BigInt`, modelled by `ℕ`) arithmetic, the v2 decoder
reads the same value directly, and the result is exact for every value up to
`2^64 - 1` (no floating-point step exists in either computation). -/
theorem c1_supply_decoded_exactly (bytes : List ℕ)
    (hlen : 82 ≤ bytes.length) (hb : ∀ b ∈ bytes, b < 256) :
    ∃ r r2 : Glassbox.MintRecord,
      Glassbox.parseMintAccount bytes = some r ∧
      GlassboxV2.parseMintAccount bytes = some r2 ∧
      r.supply = Glassbox.u32le bytes 36 + Glassbox.u32le bytes 40 * 2 ^ 32 ∧
      r.supply = Glassbox.u64le bytes 36 ∧
      r2.supply = r.supply ∧
      r.supply < 2 ^ 64 := by
  have hshift := Glassbox.u32le_add_shift bytes
  refine ⟨{ supply := Glassbox.u32le bytes 36 + Glassbox.u32le bytes 40 * 2 ^ 32,
            decimals := bytes.getD 44 0,
            hasMintAuthority := Glassbox.u32le bytes 0 != 0,
            hasFreezeAuthority := Glassbox.u32le bytes 46 != 0 },
         { supply := Glassbox.u64le bytes 36,
           decimals := bytes.getD 44 0,
           hasMintAuthority := Glassbox.u32le bytes 0 != 0,
           hasFreezeAuthority := Glassbox.u32le bytes 48 != 0 },
         ?_, ?_, rfl, hshift, hshift.symm, ?_⟩
  · unfold Glassbox.parseMintAccount
    rw [if_pos (by omega)]
  · unfold GlassboxV2.parseMintAccount
    rw [if_neg (by omega)]
  · rw [hshift]
    exact Glassbox.u64le_lt hb 36 (by omega)

/-- Witness for C1 at a concrete 82-byte account: 81 zero bytes with byte 40
set to 1, so the supply is `2^32`. -/
theorem c1_supply_decoded_exactly_witness :
    82 ≤ (List.replicate 40 0 ++ 1 :: List.replicate 41 0).length ∧
      ∃ r r2 : Glassbox.MintRecord,
        Glassbox.parseMintAccount (List.replicate 40 0 ++ 1 :: List.replicate 41 0) = some r ∧
        GlassboxV2.parseMintAccount (List.replicate 40 0 ++ 1 :: List.replicate 41 0) = some r2 ∧
        r.supply = Glassbox.u32le (List.replicate 40 0 ++ 1 :: List.replicate 41 0) 36 +
          Glassbox.u32le (List.replicate 40 0 ++ 1 :: List.replicate 41 0) 40 * 2 ^ 32 ∧
        r.supply = Glassbox.u64le (List.replicate 40 0 ++ 1 :: List.replicate 41 0) 36 ∧
        r2.supply = r.supply ∧
        r.supply < 2 ^ 64 :=
  ⟨by decide,
   c1_supply_decoded_exactly (List.replicate 40 0 ++ 1 :: List.replicate 41 0)
     (by decide) (by decide)⟩

/-- C6 (amended part). The length-guarded v2 decoder fails (throws
`"Mint account data too short"`, the specification's `MalformedAccountData`)
for every input of fewer than 82 bytes, never returning a record. -/
theorem c6_guarded_decoder_rejects_short (bytes : List ℕ)
    (hlen : bytes.length < 82) :
    GlassboxV2.parseMintAccount bytes = none := by
  unfold GlassboxV2.parseMintAccount
  rw [if_pos hlen]

/-- Witness for C6 at a concrete 10-byte input. -/
theorem c6_guarded_decoder_rejects_short_witness :
    (List.replicate 10 1).length < 82 ∧
      GlassboxV2.parseMintAccount (List.replicate 10 1) = none :=
  ⟨by decide, c6_guarded_decoder_rejects_short (List.replicate 10 1) (by decide)⟩

/-- C6 (counterexample). The claim "the decoder fails whenever fewer than 82
bytes are supplied" is false for the `DataView`-based decoder actually used
by the `part_000`/`part_004`/first-`check.js` handlers: a 50-byte all-zero
input is shorter than 82 bytes yet decodes without error to a full
`MintRecord` (supply 0, decimals 0, no authorities). -/
theorem c6_dataview_decoder_accepts_50_bytes :
    (List.replicate 50 0).length < 82 ∧
      Glassbox.parseMintAccount (List.replicate 50 0) =
        some { supply := 0, decimals := 0,
               hasMintAuthority := false, hasFreezeAuthority := false } := by
  constructor
  · decide
  · decide

/-- A largest-account entry as returned by `getTokenLargestAccounts`:
`amount` is the raw integer balance (a decimal string in the wire format,
parsed with `BigInt`), `uiAmount` the scaled floating-point amount. -/
structure Entry where
  address : String
  amount : ℕ
  uiAmount : ℚ
  deriving DecidableEq, Repr

/-- A holder record as built by the handlers: `pct` is the percent of supply
with two decimal digits, `uiAmount` is carried through from the entry. -/
structure Holder where
  address : String
  pct : ℚ
  uiAmount : ℚ
  deriving DecidableEq, Repr

namespace P4

/-- The percent-of-supply computation of `src/unnamed/part_004` lines
495–512 (also `part_000` lines 260–271, `part_003` lines 397–413,
`part_010` lines 295–317): `supplyBN` is 0 when the decoded supply string is
`"0"`, and then `pct` stays 0; otherwise
`pct = Number((amountBN * 10_000n) / supplyBN) / 100` with flooring `BigInt`
division. -/
def pctOf (supply amount : ℕ) : ℚ :=
  if supply = 0 then 0 else ((amount * 10000 / supply : ℕ) : ℚ) / 100

/-- Holder construction of `part_004` lines 495–534 (LP detection aside). -/
def mkHolder (supply : ℕ) (e : Entry) : Holder :=
  { address := e.address, pct := pctOf supply e.amount, uiAmount := e.uiAmount }

/-- The full holder list of `part_004` (`allHolders` before sorting). -/
def mkHolders (supply : ℕ) (entries : List Entry) : List Holder :=
  entries.map (mkHolder supply)

end P4

namespace V1

/-- The percent computation of the FIRST handler in `src/api/check.js`
(lines 232–246): when the decoded supply is 0 the code substitutes `1n` for
the divisor (`supplyBN = ... === 0n ? 1n : ...`) instead of returning 0. -/
def pctOf (supply amount : ℕ) : ℚ :=
  ((amount * 10000 / (if supply = 0 then 1 else supply) : ℕ) : ℚ) / 100

end V1

/-- C2 (counterexample). The first `check.js` handler does substitute a
different supply value (1) into the percentage formula when the decoded
supply is zero: a holder with raw amount 5 under supply 0 is assigned
`percentOfSupply = 500`, not the claimed 0. -/
theorem c2_zero_supply_substitution :
    V1.pctOf 0 5 = 500 ∧ (500 : ℚ) ≠ 0 := by
  constructor
  · norm_num [V1.pctOf]
  · norm_num

/-- C2 (amended). In the `part_004` handler (and `part_000`, `part_003`,
`part_010`) a zero decoded supply gives `percentOfSupply = 0` for every
holder and no error is raised (the computation is total); only the first
`check.js` handler substitutes supply = 1, so only holders with raw amount 0
get 0 percent there. -/
theorem c2_zero_supply_all_pct_zero (entries : List Entry) (h : Holder)
    (hmem : h ∈ P4.mkHolders 0 entries) : h.pct = 0 := by
  rcases List.mem_map.mp hmem with ⟨e, _, rfl⟩
  simp [P4.mkHolder, P4.pctOf]

/-- Witness for C2 at a concrete entry list. -/
theorem c2_zero_supply_all_pct_zero_witness :
    P4.mkHolder 0 ⟨"A", 7, 3⟩ ∈ P4.mkHolders 0 [⟨"A", 7, 3⟩] ∧
      (P4.mkHolder 0 ⟨"A", 7, 3⟩).pct = 0 :=
  ⟨by simp [P4.mkHolders], c2_zero_supply_all_pct_zero [⟨"A", 7, 3⟩] _
    (by simp [P4.mkHolders])⟩

/-- C7. With a positive supply and holder raw amounts summing to at most the
supply, the sum over ALL holders of
`percentOfSupply = floor(rawAmount * 10000 / supply) / 100` never exceeds
100.00 within the rounding tolerance of 0.01 per holder times the holder
count (the flooring division in fact keeps the sum at or below 100 exactly). -/
theorem c7_percent_sum_bounded (amounts : List ℕ) (S : ℕ)
    (hS : 0 < S) (hsum : amounts.sum ≤ S) :
    (amounts.map (fun a => P4.pctOf S a)).sum ≤
      100 + (amounts.length : ℚ) * (1 / 100) := by
  have hS0 : (0 : ℚ) < (S : ℚ) := by exact_mod_cast hS
  have hstep : ∀ a ∈ amounts, P4.pctOf S a ≤ (Nat.cast a : ℚ) * 100 / S := by
    intro a _
    unfold P4.pctOf
    rw [if_neg (by omega)]
    have hdiv : ((a * 10000 / S : ℕ) : ℚ) ≤ ((a * 10000 : ℕ) : ℚ) / S :=
      Nat.cast_div_le
    have hnum : ((a * 10000 : ℕ) : ℚ) = (Nat.cast a : ℚ) * 10000 := by
      push_cast
      ring
    rw [hnum] at hdiv
    calc ((a * 10000 / S : ℕ) : ℚ) / 100
        ≤ ((Nat.cast a : ℚ) * 10000 / S) / 100 := by
          apply div_le_div_of_nonneg_right hdiv
          norm_num
      _ = (Nat.cast a : ℚ) * 100 / S := by ring
  have h1 : (amounts.map (fun a => P4.pctOf S a)).sum ≤
      (amounts.map (fun a => (Nat.cast a : ℚ) * 100 / S)).sum :=
    List.sum_le_sum hstep
  have h2 : ∀ l : List ℕ, (l.map (fun a => (Nat.cast a : ℚ) * 100 / S)).sum =
      ((l.sum : ℕ) : ℚ) * 100 / S := by
    intro l
    induction l with
    | nil => simp
    | cons a t ih =>
        rw [List.map_cons, List.sum_cons, List.sum_cons, ih]
        push_cast
        ring
  have h3 : ((amounts.sum : ℕ) : ℚ) * 100 / S ≤ 100 := by
    rw [div_le_iff₀ hS0]
    have hc : ((amounts.sum : ℕ) : ℚ) ≤ (S : ℚ) := by exact_mod_cast hsum
    nlinarith
  have h4 : (0 : ℚ) ≤ (amounts.length : ℚ) * (1 / 100) := by positivity
  calc (amounts.map (fun a => P4.pctOf S a)).sum
      ≤ ((amounts.sum : ℕ) : ℚ) * 100 / S := (h2 amounts) ▸ h1
    _ ≤ 100 := h3
    _ ≤ 100 + (amounts.length : ℚ) * (1 / 100) := by linarith

/-- Witness for C7: supply 10, raw amounts 5 and 3. -/
theorem c7_percent_sum_bounded_witness :
    0 < 10 ∧ [5, 3].sum ≤ 10 ∧
      (([5, 3] : List ℕ).map (fun a => P4.pctOf 10 a)).sum ≤
        100 + (([5, 3] : List ℕ).length : ℚ) * (1 / 100) :=
  ⟨by decide, by decide, c7_percent_sum_bounded [5, 3] 10 (by decide) (by decide)⟩

namespace P4

/-- Relative difference between a holder's UI amount and the externally
reported pool reserve, as in `part_004` lines 523–524. -/
def relDiff (r : ℚ) (h : Holder) : ℚ := |h.uiAmount - r| / r

/-- One iteration of the reserve-matching LP scan of `part_004` lines
514–531: the running best (`lpHolder`, `bestReserveRelDiff`) is replaced
when the holder has a positive `uiAmount` and a relative difference below
the 20% tolerance that is strictly smaller than the best seen so far
(`bestReserveRelDiff` starts at `Infinity`, modelled by `none`). -/
def lpStep (r : ℚ) (acc : Option (Holder × ℚ)) (h : Holder) :
    Option (Holder × ℚ) :=
  let rd := relDiff r h
  let better : Bool := match acc with
    | none => true
    | some p => decide (rd < p.2)
  if 0 < h.uiAmount ∧ rd < 1 / 5 ∧ better = true then some (h, rd) else acc

/-- The reserve-matching scan over the holder list in its original RPC
order (the loop of `part_004` lines 495–534 runs before the list is
sorted). -/
def scanLp (r : ℚ) (hs : List Holder) : Option (Holder × ℚ) :=
  hs.foldl (lpStep r) none

/-- `allHolders.sort((a, b) => (b.uiAmount || 0) - (a.uiAmount || 0))`
(`part_004` line 537): a stable sort by descending `uiAmount`. -/
def sortHolders (hs : List Holder) : List Holder :=
  hs.insertionSort (fun a b => b.uiAmount ≤ a.uiAmount)

/-- The dominance fallback of `part_004` lines 539–543: the top holder of
the sorted list is the LP exactly when its percent of supply is at least
40 (the head of the descending-`uiAmount` ordering is the single largest
holder). -/
def dominanceFallback (hs : List Holder) : Option Holder :=
  match (sortHolders hs).head? with
  | some top => if 40 ≤ top.pct then some top else none
  | none => none

/-- The complete LP identification of `part_004` lines 486–543: the
reserve scan when `poolMintReserve` is present, finite and positive, and
the dominance fallback when the reserve is absent, non-positive, or no
holder matched it. -/
def identifyLp (reserve : Option ℚ) (hs : List Holder) : Option Holder :=
  match reserve with
  | some r =>
    if 0 < r then
      match (scanLp r hs).map Prod.fst with
      | some h => some h
      | none => dominanceFallback hs
    else dominanceFallback hs
  | none => dominanceFallback hs

/-- The LP partition of `part_004` lines 545–553: `nonLpHolders` filters
the sorted list by address inequality with the identified LP (the full
sorted list when no LP was identified). -/
def lpPartition (reserve : Option ℚ) (hs : List Holder) :
    Option Holder × List Holder :=
  let sorted := sortHolders hs
  let lp := identifyLp reserve hs
  (lp, match lp with
       | some l => sorted.filter (fun h => h.address != l.address)
       | none => sorted)

end P4

namespace Spec

/-- Holders eligible for reserve matching, in the claim's words: positive
`uiAmount` and `relativeDiff` below the 20% tolerance band. -/
def candidates (r : ℚ) (hs : List Holder) : List Holder :=
  hs.filter (fun h => decide (0 < h.uiAmount) && decide (P4.relDiff r h < 1 / 5))

/-- "Select the one with the smallest relativeDiff" — earliest holder on a
tie (the specification breaks ties by holder order). -/
def selectMinRel (r : ℚ) : List Holder → Option Holder
  | [] => none
  | h :: t =>
    match selectMinRel r t with
    | none => some h
    | some m => if P4.relDiff r m < P4.relDiff r h then some m else some h

/-- The reference LP-identification algorithm as the claim states it: with
a present positive reserve, the candidate of smallest relative difference;
when none qualifies, the single largest holder exactly when its
`percentOfSupply` is at least 40; otherwise no LP holder. -/
def identifyLp (reserve : Option ℚ) (hs : List Holder) : Option Holder :=
  match reserve with
  | some r =>
    if 0 < r then
      match selectMinRel r (candidates r hs) with
      | some h => some h
      | none => P4.dominanceFallback hs
    else P4.dominanceFallback hs
  | none => P4.dominanceFallback hs

end Spec

namespace P4

/-- Combining an already-accumulated best with the minimum of the remaining
candidates: the auxiliary invariant shape of the reserve scan. -/
def mergeBest (r : ℚ) (acc : Option (Holder × ℚ)) (m : Option Holder) :
    Option (Holder × ℚ) :=
  match m with
  | none => acc
  | some x =>
    match acc with
    | none => some (x, relDiff r x)
    | some p => if relDiff r x < p.2 then some (x, relDiff r x) else some p

lemma lpStep_not_qual (r : ℚ) (acc : Option (Holder × ℚ)) (h : Holder)
    (hq : ¬(0 < h.uiAmount ∧ relDiff r h < 1 / 5)) : lpStep r acc h = acc := by
  unfold lpStep
  apply if_neg
  rintro ⟨h1, h2, -⟩
  exact hq ⟨h1, h2⟩

lemma lpStep_none_qual (r : ℚ) (h : Holder)
    (hq1 : 0 < h.uiAmount) (hq2 : relDiff r h < 1 / 5) :
    lpStep r none h = some (h, relDiff r h) := by
  unfold lpStep
  exact if_pos ⟨hq1, hq2, rfl⟩

lemma lpStep_some_better (r : ℚ) (p : Holder × ℚ) (h : Holder)
    (hq1 : 0 < h.uiAmount) (hq2 : relDiff r h < 1 / 5)
    (hb : relDiff r h < p.2) :
    lpStep r (some p) h = some (h, relDiff r h) := by
  unfold lpStep
  exact if_pos ⟨hq1, hq2, decide_eq_true hb⟩

lemma lpStep_some_not_better (r : ℚ) (p : Holder × ℚ) (h : Holder)
    (hb : ¬ relDiff r h < p.2) :
    lpStep r (some p) h = some p := by
  unfold lpStep
  apply if_neg
  rintro ⟨-, -, hd⟩
  exact hb (of_decide_eq_true hd)

lemma candidates_cons_qual (r : ℚ) (h : Holder) (t : List Holder)
    (hq1 : 0 < h.uiAmount) (hq2 : relDiff r h < 1 / 5) :
    Spec.candidates r (h :: t) = h :: Spec.candidates r t := by
  unfold Spec.candidates
  rw [List.filter_cons, if_pos]
  rw [Bool.and_eq_true, decide_eq_true_eq, decide_eq_true_eq]
  exact ⟨hq1, hq2⟩

lemma candidates_cons_not_qual (r : ℚ) (h : Holder) (t : List Holder)
    (hq : ¬(0 < h.uiAmount ∧ relDiff r h < 1 / 5)) :
    Spec.candidates r (h :: t) = Spec.candidates r t := by
  unfold Spec.candidates
  rw [List.filter_cons, if_neg]
  rw [Bool.and_eq_true, decide_eq_true_eq, decide_eq_true_eq]
  exact hq

lemma selectMinRel_cons_none (r : ℚ) (h : Holder) (l : List Holder)
    (hmt : Spec.selectMinRel r l = none) :
    Spec.selectMinRel r (h :: l) = some h := by
  unfold Spec.selectMinRel
  rw [hmt]

lemma selectMinRel_cons_some (r : ℚ) (h m : Holder) (l : List Holder)
    (hmt : Spec.selectMinRel r l = some m) :
    Spec.selectMinRel r (h :: l) =
      if relDiff r m < relDiff r h then some m else some h := by
  unfold Spec.selectMinRel
  rw [hmt]

lemma foldl_lpStep_eq_mergeBest (r : ℚ) :
    ∀ (hs : List Holder) (acc : Option (Holder × ℚ)),
      hs.foldl (lpStep r) acc =
        mergeBest r acc (Spec.selectMinRel r (Spec.candidates r hs)) := by
  intro hs
  induction hs with
  | nil => intro acc; cases acc <;> rfl
  | cons h t ih =>
    intro acc
    rw [List.foldl_cons, ih]
    by_cases hq : 0 < h.uiAmount ∧ relDiff r h < 1 / 5
    · rw [candidates_cons_qual r h t hq.1 hq.2]
      rcases hmt : Spec.selectMinRel r (Spec.candidates r t) with _ | m
      · -- no candidate in the tail: the head is the selected minimum
        rw [selectMinRel_cons_none r h _ hmt]
        rcases acc with _ | p
        · rw [lpStep_none_qual r h hq.1 hq.2]
          rfl
        · by_cases hb : relDiff r h < p.2
          · rw [lpStep_some_better r p h hq.1 hq.2 hb]
            show some (h, relDiff r h) = if relDiff r h < p.2 then _ else _
            rw [if_pos hb]
          · rw [lpStep_some_not_better r p h hb]
            show some p = if relDiff r h < p.2 then _ else _
            rw [if_neg hb]
      · -- the tail minimum is m
        rw [selectMinRel_cons_some r h m _ hmt]
        rcases acc with _ | p
        · rw [lpStep_none_qual r h hq.1 hq.2]
          by_cases hmh : relDiff r m < relDiff r h
          · rw [if_pos hmh]
            show (if relDiff r m < relDiff r h then _ else _ : Option (Holder × ℚ)) =
              mergeBest r none (some m)
            rw [if_pos hmh]
            rfl
          · rw [if_neg hmh]
            show (if relDiff r m < relDiff r h then _ else _ : Option (Holder × ℚ)) =
              mergeBest r none (some h)
            rw [if_neg hmh]
            rfl
        · by_cases hb : relDiff r h < p.2
          · rw [lpStep_some_better r p h hq.1 hq.2 hb]
            by_cases hmh : relDiff r m < relDiff r h
            · rw [if_pos hmh]
              show (if relDiff r m < relDiff r h then _ else _ : Option (Holder × ℚ)) =
                (if relDiff r m < p.2 then _ else _ : Option (Holder × ℚ))
              rw [if_pos hmh, if_pos (lt_trans hmh hb)]
            · rw [if_neg hmh]
              show (if relDiff r m < relDiff r h then _ else _ : Option (Holder × ℚ)) =
                (if relDiff r h < p.2 then _ else _ : Option (Holder × ℚ))
              rw [if_neg hmh, if_pos hb]
          · rw [lpStep_some_not_better r p h hb]
            by_cases hmh : relDiff r m < relDiff r h
            · rw [if_pos hmh]
            · rw [if_neg hmh]
              have hmp : ¬ relDiff r m < p.2 := by
                have h1 := not_lt.mp hmh
                have h2 := not_lt.mp hb
                intro hcon
                linarith
              show (if relDiff r m < p.2 then _ else _ : Option (Holder × ℚ)) =
                (if relDiff r h < p.2 then _ else _ : Option (Holder × ℚ))
              rw [if_neg hmp, if_neg hb]
    · rw [candidates_cons_not_qual r h t hq, lpStep_not_qual r acc h hq]

/-- The scan of `part_004` computes exactly the claim's "smallest
relativeDiff among qualifying holders" selection. -/
lemma scanLp_eq_selectMin (r : ℚ) (hs : List Holder) :
    (scanLp r hs).map Prod.fst = Spec.selectMinRel r (Spec.candidates r hs) := by
  unfold scanLp
  rw [foldl_lpStep_eq_mergeBest]
  rcases Spec.selectMinRel r (Spec.candidates r hs) with _ | m
  · simp [mergeBest]
  · simp [mergeBest]

end P4

namespace P3

/-- One iteration of the reserve-matching loop of `src/unnamed/part_003`
lines 425–433: `if (!h.uiAmount || Number.isNaN(h.uiAmount)) continue`, so a
holder qualifies when its `uiAmount` is non-zero (not necessarily positive)
and its relative difference is below the 20% band and strictly better than
the best seen. -/
def lpStep (r : ℚ) (acc : Option (Holder × ℚ)) (h : Holder) :
    Option (Holder × ℚ) :=
  let rd := P4.relDiff r h
  let better : Bool := match acc with
    | none => true
    | some p => decide (rd < p.2)
  if ¬ h.uiAmount = 0 ∧ rd < 1 / 5 ∧ better = true then some (h, rd) else acc

/-- `(a.uiAmount || 0) >= (b.uiAmount || 0) ? a : b` — the reduce step of
`part_003` lines 437–439, keeping the earlier holder on ties. -/
def maxByUi (a b : Holder) : Holder :=
  if b.uiAmount ≤ a.uiAmount then a else b

/-- LP identification of `part_003` lines 415–440: the reserve scan when
the pool reserve is present and positive, and otherwise a dominance
fallback that — unlike `part_004` — selects the largest holder whenever the
list is non-empty, with NO check that its percent of supply reaches 40. -/
def identifyLp (reserve : Option ℚ) (hs : List Holder) : Option Holder :=
  let primary : Option Holder := match reserve with
    | some r => if 0 < r then (hs.foldl (lpStep r) none).map Prod.fst else none
    | none => none
  match primary with
  | some h => some h
  | none =>
    match hs with
    | [] => none
    | x :: t => some (t.foldl maxByUi x)

end P3

/-- C3 (counterexample). The liquidity-pool identifier does NOT always equal
the reference algorithm: with no external reserve and a single holder of
`percentOfSupply = 10 < 40`, the `part_003` identifier still selects that
holder as the LP through its unconditional dominance fallback, while the
reference algorithm (and the claim) identify no LP holder. -/
theorem c3_part3_fallback_ignores_dominance :
    P3.identifyLp none [⟨"A", 10, 100⟩] = some ⟨"A", 10, 100⟩ ∧
      (Holder.pct ⟨"A", 10, 100⟩ < 40) ∧
      Spec.identifyLp none [⟨"A", 10, 100⟩] = none := by
  refine ⟨rfl, by norm_num, ?_⟩
  show (if (40 : ℚ) ≤ 10 then some (⟨"A", 10, 100⟩ : Holder) else none) = none
  rw [if_neg (by norm_num)]

/-- The `part_004` identifier agrees with the reference algorithm on every
input (shared helper; the C3 theorem restates it). -/
lemma P4.identifyLp_eq_spec (reserve : Option ℚ)
    (hs : List Holder) : P4.identifyLp reserve hs = Spec.identifyLp reserve hs := by
  rcases reserve with _ | r
  · rfl
  · show (if 0 < r then
        match (P4.scanLp r hs).map Prod.fst with
        | some h => some h
        | none => P4.dominanceFallback hs
      else P4.dominanceFallback hs) =
      (if 0 < r then
        match Spec.selectMinRel r (Spec.candidates r hs) with
        | some h => some h
        | none => P4.dominanceFallback hs
      else P4.dominanceFallback hs)
    rw [P4.scanLp_eq_selectMin]

/-- C3 (amended). The `part_004` liquidity-pool identifier equals the
reference algorithm of the claim: when `externalPoolReserve` is present and
positive it selects, among holders with positive `uiAmount` and
`relativeDiff = |uiAmount - reserve| / reserve < 0.20`, the one with the
smallest `relativeDiff` (first in input order on ties); when no holder
qualifies it selects the largest holder (head of the descending `uiAmount`
ordering) exactly when its `percentOfSupply ≥ 40`, and otherwise no LP
holder is identified.  The `part_003` variant violates the claim through
its unconditional fallback. -/
theorem c3_part4_identifier_matches_reference (reserve : Option ℚ)
    (hs : List Holder) : P4.identifyLp reserve hs = Spec.identifyLp reserve hs :=
  P4.identifyLp_eq_spec reserve hs

namespace Spec

lemma selectMinRel_mem (r : ℚ) :
    ∀ (l : List Holder) (m : Holder), selectMinRel r l = some m → m ∈ l := by
  intro l
  induction l with
  | nil => intro m hm; cases hm
  | cons h t ih =>
    intro m hm
    rcases hmt : selectMinRel r t with _ | m'
    · rw [P4.selectMinRel_cons_none r h t hmt] at hm
      cases hm
      exact List.mem_cons_self h t
    · rw [P4.selectMinRel_cons_some r h m' t hmt] at hm
      by_cases hlt : P4.relDiff r m' < P4.relDiff r h
      · rw [if_pos hlt] at hm
        cases hm
        exact List.mem_cons_of_mem h (ih _ hmt)
      · rw [if_neg hlt] at hm
        cases hm
        exact List.mem_cons_self h t

end Spec

namespace P4

lemma sortHolders_perm (hs : List Holder) : (sortHolders hs).Perm hs :=
  List.perm_insertionSort _ hs

/-- A holder produced by the dominance fallback is the head of the sorted
list, hence a member of it. -/
lemma dominanceFallback_mem (hs : List Holder) (l : Holder)
    (hl : dominanceFallback hs = some l) : l ∈ sortHolders hs := by
  unfold dominanceFallback at hl
  rcases hhead : (sortHolders hs).head? with _ | top
  · rw [hhead] at hl
    cases hl
  · rw [hhead] at hl
    simp only at hl
    by_cases htop : (40 : ℚ) ≤ top.pct
    · rw [if_pos htop] at hl
      cases hl
      exact List.mem_of_mem_head? hhead
    · rw [if_neg htop] at hl
      cases hl

/-- The identified LP holder is always an element of the sorted holder
list. -/
lemma identifyLp_mem (reserve : Option ℚ) (hs : List Holder) (l : Holder)
    (hl : identifyLp reserve hs = some l) : l ∈ sortHolders hs := by
  rw [identifyLp_eq_spec] at hl
  rcases reserve with _ | r
  · exact dominanceFallback_mem hs l hl
  · by_cases hr : 0 < r
    · rw [show Spec.identifyLp (some r) hs = (if 0 < r then
          match Spec.selectMinRel r (Spec.candidates r hs) with
          | some h => some h
          | none => dominanceFallback hs
        else dominanceFallback hs) from rfl, if_pos hr] at hl
      rcases hsel : Spec.selectMinRel r (Spec.candidates r hs) with _ | m
      · rw [hsel] at hl
        exact dominanceFallback_mem hs l hl
      · rw [hsel] at hl
        cases hl
        have hmem : l ∈ Spec.candidates r hs := Spec.selectMinRel_mem r _ l hsel
        have : l ∈ hs := List.mem_of_mem_filter hmem
        exact ((sortHolders_perm hs).mem_iff).mpr this
    · rw [show Spec.identifyLp (some r) hs = (if 0 < r then
          match Spec.selectMinRel r (Spec.candidates r hs) with
          | some h => some h
          | none => dominanceFallback hs
        else dominanceFallback hs) from rfl, if_neg hr] at hl
      exact dominanceFallback_mem hs l hl

/-- Filtering out the LP's address removes exactly the LP entry when holder
addresses are pairwise distinct. -/
lemma filter_address_ne_eq_erase (l : Holder) :
    ∀ (xs : List Holder), (xs.map Holder.address).Nodup → l ∈ xs →
      xs.filter (fun h => h.address != l.address) = xs.erase l := by
  intro xs
  induction xs with
  | nil => intro _ hmem; cases hmem
  | cons x t ih =>
    intro hnd hmem
    rw [List.map_cons, List.nodup_cons] at hnd
    by_cases hx : x = l
    · subst hx
      rw [List.filter_cons, if_neg (by simp), List.erase_cons_head]
      apply List.filter_eq_self.mpr
      intro a ha
      have : a.address ≠ x.address := by
        intro hcontra
        exact hnd.1 (hcontra ▸ List.mem_map_of_mem Holder.address ha)
      simpa using this
    · have hlt : l ∈ t := by
        rcases List.mem_cons.mp hmem with h1 | h2
        · exact absurd h1.symm hx
        · exact h2
      have hxa : x.address ≠ l.address := by
        intro hcontra
        exact hnd.1 (hcontra ▸ List.mem_map_of_mem Holder.address hlt)
      rw [List.filter_cons, if_pos (by simpa using hxa),
        List.erase_cons_tail (by simpa using hx),
        ih hnd.2 hlt]

end P4

/-- C9 (amended). At most one holder is ever flagged as the LP (the
identifier returns an `Option`), and whenever the holder addresses are
pairwise distinct, `nonLpHolders` is exactly the (sorted) holder list minus
that single entry — the full list when no LP is identified.  With duplicate
addresses `part_004` instead removes every entry sharing the LP's address
(see the counterexample). -/
theorem c9_partition_removes_single_entry (reserve : Option ℚ)
    (hs : List Holder) (hnd : (hs.map Holder.address).Nodup) :
    (P4.lpPartition reserve hs).2 =
      match (P4.lpPartition reserve hs).1 with
      | some l => (P4.sortHolders hs).erase l
      | none => P4.sortHolders hs := by
  unfold P4.lpPartition
  rcases hlp : P4.identifyLp reserve hs with _ | l
  · rfl
  · show (P4.sortHolders hs).filter (fun h => h.address != l.address) =
      (P4.sortHolders hs).erase l
    have hnd' : ((P4.sortHolders hs).map Holder.address).Nodup := by
      refine (List.Perm.nodup_iff ?_).mpr hnd
      exact (P4.sortHolders_perm hs).map Holder.address
    exact P4.filter_address_ne_eq_erase l (P4.sortHolders hs) hnd'
      (P4.identifyLp_mem reserve hs l hlp)

/-- Witness for C9 at two distinct-address holders, the top one holding 50%
(so the dominance fallback flags it). -/
theorem c9_partition_removes_single_entry_witness :
    (([⟨"A", 50, 500⟩, ⟨"B", 10, 100⟩] : List Holder).map Holder.address).Nodup ∧
      (P4.lpPartition none [⟨"A", 50, 500⟩, ⟨"B", 10, 100⟩]).2 =
        match (P4.lpPartition none [⟨"A", 50, 500⟩, ⟨"B", 10, 100⟩]).1 with
        | some l => (P4.sortHolders [⟨"A", 50, 500⟩, ⟨"B", 10, 100⟩]).erase l
        | none => P4.sortHolders [⟨"A", 50, 500⟩, ⟨"B", 10, 100⟩] :=
  ⟨by decide,
   c9_partition_removes_single_entry none [⟨"A", 50, 500⟩, ⟨"B", 10, 100⟩] (by decide)⟩

/-- C9 (counterexample). With a duplicated address the complement property
fails: two holders share address "A", the top one (50%) is flagged as LP by
the dominance fallback, and `nonLpHolders` comes out EMPTY — both entries
were removed, not just the single flagged one, so `nonLpHolders` is not
`allHolders` minus that entry. -/
theorem c9_duplicate_address_removes_both :
    P4.lpPartition none [⟨"A", 50, 500⟩, ⟨"A", 30, 300⟩] =
      (some ⟨"A", 50, 500⟩, ([] : List Holder)) ∧
    ([] : List Holder) ≠ [⟨"A", 30, 300⟩] := by
  constructor
  · decide
  · decide

namespace P4

/-- The liquidity-truth classifier of `part_004` lines 706–761 (identical
in `part_003` lines 595–633): the level stays `"unknown"` unless
`liquidityUsd`, `volume24Usd` and `txCount24` are all present and positive,
and then the rules are checked in order with first match winning. -/
def liquidityTruthLevel (liq vol tx : Option ℚ) : String :=
  match liq, vol, tx with
  | some l, some v, some t =>
    if 0 < l ∧ 0 < v ∧ 0 < t then
      if 100 < v / l ∧ t < 50 then "high"
      else if 30 < v / l ∧ t < 150 then "medium"
      else "low"
    else "unknown"
  | _, _, _ => "unknown"

end P4

namespace Spec

/-- The claim's rule table for the liquidity-authenticity classifier,
written from its words: `ratio = volume24hUsd / liquidityUsd`; `high` when
`ratio > 100` and `txCount24h < 50`; `medium` when `ratio > 30` and
`txCount24h < 150`; `low` otherwise; and `unknown` whenever any of the
three inputs is missing or non-positive. -/
def liquidityClassifier (liq vol tx : Option ℚ) : String :=
  match liq, vol, tx with
  | some l, some v, some t =>
    if l ≤ 0 ∨ v ≤ 0 ∨ t ≤ 0 then "unknown"
    else if 100 < v / l ∧ t < 50 then "high"
    else if 30 < v / l ∧ t < 150 then "medium"
    else "low"
  | _, _, _ => "unknown"

end Spec

namespace CheckFinal

/-- `t != null && t < c`, the trade-count tests of `buildLiquidityTruth`. -/
def ltOpt (t : Option ℚ) (c : ℚ) : Bool :=
  match t with
  | some v => decide (v < c)
  | none => false

/-- `buildLiquidityTruth` of the last handler in `src/api/check.js`
(lines 1119–1184): `unknown` only when liquidity or volume is missing,
liquidity is non-positive or volume is negative (the trade count is NOT
required); then an age-dependent rule set with 20/40 ratio thresholds. -/
def buildLiquidityTruth (liquidityUsd volume24hUsd trades24h ageDays :
    Option ℚ) : String :=
  match liquidityUsd, volume24hUsd with
  | some l, some v =>
    if l ≤ 0 ∨ v < 0 then "unknown"
    else if ltOpt ageDays (1 / 4) = true then
      if 20 < v / l ∨ ltOpt trades24h 20 = true then "high" else "medium"
    else
      if 40 < v / l then "high"
      else if v / l < 1 ∧ ltOpt trades24h 20 = true then "high"
      else if v / l ≤ 20 then "low"
      else "medium"
  | _, _ => "unknown"

end CheckFinal

/-- C4 (counterexample). The claim's rule table does not hold of
`buildLiquidityTruth` in `src/api/check.js`: with liquidity 10000, volume
500000 (ratio 50) and 100 trades — all present and positive — the claim
requires `medium` (`ratio > 30` and `txCount < 150`, and not `high` since
`ratio ≤ 100`), but `buildLiquidityTruth` returns `high` (its old-pool
threshold is `ratio > 40`, and it never reads the trade count there). -/
theorem c4_buildLiquidityTruth_diverges :
    CheckFinal.buildLiquidityTruth (some 10000) (some 500000) (some 100) none
        = "high" ∧
      Spec.liquidityClassifier (some 10000) (some 500000) (some 100)
        = "medium" := by
  constructor
  · show (if (10000 : ℚ) ≤ 0 ∨ (500000 : ℚ) < 0 then "unknown"
      else if CheckFinal.ltOpt none (1 / 4) = true then
        if 20 < (500000 : ℚ) / 10000 ∨ CheckFinal.ltOpt (some 100) 20 = true
        then "high" else "medium"
      else
        if 40 < (500000 : ℚ) / 10000 then "high"
        else if (500000 : ℚ) / 10000 < 1 ∧ CheckFinal.ltOpt (some 100) 20 = true
        then "high"
        else if (500000 : ℚ) / 10000 ≤ 20 then "low"
        else "medium") = "high"
    norm_num [CheckFinal.ltOpt]
  · show (if (10000 : ℚ) ≤ 0 ∨ (500000 : ℚ) ≤ 0 ∨ (100 : ℚ) ≤ 0 then "unknown"
      else if 100 < (500000 : ℚ) / 10000 ∧ (100 : ℚ) < 50 then "high"
      else if 30 < (500000 : ℚ) / 10000 ∧ (100 : ℚ) < 150 then "medium"
      else "low") = "medium"
    norm_num

/-- C4 (amended). The inline classifier of `part_004` (and `part_003`)
implements exactly the claimed rule table — `high` iff `ratio > 100` and
`txCount < 50`, else `medium` iff `ratio > 30` and `txCount < 150`, else
`low`, and `unknown` whenever an input is missing or non-positive; the
`buildLiquidityTruth` variant of `check.js` does not (see the
counterexample). -/
theorem c4_part4_classifier_matches_rules (liq vol tx : Option ℚ) :
    P4.liquidityTruthLevel liq vol tx = Spec.liquidityClassifier liq vol tx := by
  rcases liq with _ | l
  · rcases vol with _ | v <;> rcases tx with _ | t <;> rfl
  · rcases vol with _ | v
    · rcases tx with _ | t <;> rfl
    · rcases tx with _ | t
      · rfl
      · show (if 0 < l ∧ 0 < v ∧ 0 < t then
            if 100 < v / l ∧ t < 50 then "high"
            else if 30 < v / l ∧ t < 150 then "medium"
            else "low"
          else "unknown") =
          (if l ≤ 0 ∨ v ≤ 0 ∨ t ≤ 0 then "unknown"
          else if 100 < v / l ∧ t < 50 then "high"
          else if 30 < v / l ∧ t < 150 then "medium"
          else "low")
        by_cases hpos : 0 < l ∧ 0 < v ∧ 0 < t
        · have hneg : ¬(l ≤ 0 ∨ v ≤ 0 ∨ t ≤ 0) := by
            push_neg
            exact hpos
          rw [if_pos hpos, if_neg hneg]
        · have hdisj : l ≤ 0 ∨ v ≤ 0 ∨ t ≤ 0 := by
            by_contra hcon
            push_neg at hcon
            exact hpos hcon
          rw [if_neg hpos, if_pos hdisj]

namespace P4

/-- `t !== null && t <= c`. -/
def leOpt (t : Option ℚ) (c : ℚ) : Bool :=
  match t with
  | some v => decide (v ≤ c)
  | none => false

/-- `t === null || t <= c`. -/
def nullOrLe (t : Option ℚ) (c : ℚ) : Bool :=
  match t with
  | some v => decide (v ≤ c)
  | none => true

/-- The base risk model of `part_004` lines 657–686 (same three branches as
`src/api/check.js` lines 295–318, which uses a non-`null` `top10Pct`):
level/score 90 when both authorities are absent and the top-10 percent
excluding LP is known and at most 25; 65 when the mint authority is absent
and the percent is unknown or at most 60; 25 otherwise. -/
def riskScoreBase (m f : Bool) (t : Option ℚ) : String × ℤ :=
  if !m && !f && leOpt t 25 then ("low", 90)
  else if !m && nullOrLe t 60 then ("medium", 65)
  else ("high", 25)

/-- A stablecoin whitelist entry (`part_004` lines 10–31). -/
structure StableInfo where
  symbol : String
  name : String
  deriving DecidableEq, Repr

/-- `STABLECOIN_WHITELIST[mint]` of `part_004` lines 10–31 (note the USDC
key there lacks the final character of the real mint address; the claim
quantifies over addresses ON the list, so the lookup is embedded as
written). -/
def stableLookup (mint : String) : Option StableInfo :=
  if mint = "EPjFWdd5AufqSSqeM2qN1xzybapC8G4wEGGkZwyTDt1" then
    some { symbol := "USDC", name := "USD Coin (USDC)" }
  else if mint = "Es9vMFrzaCERmJfrF4H2FYD4KCoNkY11McCe8BenwNYB" then
    some { symbol := "USDT", name := "Tether USD (USDT)" }
  else if mint = "2b1kV6DkPAnxd5ixfnxCpjxmKwqjjaYmCZfHsFu24GXo" then
    some { symbol := "PYUSD", name := "PayPal USD (PYUSD)" }
  else if mint = "USD1ttGY1N17NEEHLmELoaybftRBUSErhqYiQzvEmuB" then
    some { symbol := "USD1", name := "World Liberty Financial USD (USD1)" }
  else none

/-- The risk summary the `part_004` handler finally returns: the base model
computed at lines 657–686, overwritten at lines 779–784 with
`level = "low", score = 95` when the mint is on the stablecoin whitelist
(the override runs after every other computation, just before the payload
is sent). -/
def finalRisk (mint : String) (m f : Bool) (t : Option ℚ) : String × ℤ :=
  match stableLookup mint with
  | some _ => ("low", 95)
  | none => riskScoreBase m f t

end P4

/-- C5. For every mint address on the stablecoin allow-list the returned
risk level is `low` and the risk score is 95, regardless of the authority
flags and the holder concentration that were computed; and for every other
address the result is exactly the base scoring formula — the override is
the only path that bypasses it (it runs last, after all other score
computation, which the embedding captures by the final result being
independent of the computed base score on whitelisted addresses). -/
theorem c5_stablecoin_override (mint : String) (m f : Bool) (t : Option ℚ) :
    ((P4.stableLookup mint).isSome →
        P4.finalRisk mint m f t = ("low", 95)) ∧
    (P4.stableLookup mint = none →
        P4.finalRisk mint m f t = P4.riskScoreBase m f t) := by
  constructor
  · intro hws
    rcases hlk : P4.stableLookup mint with _ | i
    · rw [hlk] at hws
      cases hws
    · simp only [P4.finalRisk, hlk]
  · intro hnone
    simp only [P4.finalRisk, hnone]

/-- Witness for C5 at the USDT whitelist address with both authorities
present and 99% concentration — the worst base-model inputs. -/
theorem c5_stablecoin_override_witness :
    (P4.stableLookup "Es9vMFrzaCERmJfrF4H2FYD4KCoNkY11McCe8BenwNYB").isSome ∧
      P4.finalRisk "Es9vMFrzaCERmJfrF4H2FYD4KCoNkY11McCe8BenwNYB"
        true true (some 99) = ("low", 95) :=
  ⟨by decide,
   (c5_stablecoin_override "Es9vMFrzaCERmJfrF4H2FYD4KCoNkY11McCe8BenwNYB"
     true true (some 99)).1 (by decide)⟩

namespace P10

/-- The `scamScore` of `src/unnamed/part_010` lines 467–497: start at 90,
subtract 25 for an active mint authority, 15 for an active freeze
authority, 25/15/8 for a top-10-excluding-LP percentage above 70/50/35,
10 for liquidity below 5000 USD, 10 for a token younger than one day
(86 400 000 ms); then add 10 back for a token older than 90 days
(7 776 000 000 ms) but only when the score is still below 40; finally
clamp to [0, 100]. -/
def scamScore (m f : Bool) (top10 liq age : Option ℚ) : ℤ :=
  let s1 : ℤ := 90 - (if m then 25 else 0) - (if f then 15 else 0)
  let s2 : ℤ := s1 - (match top10 with
    | some t => if 70 < t then 25 else if 50 < t then 15 else if 35 < t then 8 else 0
    | none => 0)
  let s3 : ℤ := s2 - (match liq with
    | some l => if l < 5000 then 10 else 0
    | none => 0)
  let s4 : ℤ := s3 - (match age with
    | some a => if a < 86400000 then 10 else 0
    | none => 0)
  let s5 : ℤ := if (match age with
      | some a => decide (7776000000 < a)
      | none => false) = true ∧ s4 < 40 then s4 + 10 else s4
  max 0 (min 100 s5)

end P10

/-- C8 (counterexample). Composite scoring is NOT monotonic per axis in the
`part_010` handler: with both authorities active, liquidity 10000 USD and a
100-day-old token (8 640 000 000 ms), LOWERING the top-10-excluding-LP
concentration from 51% to 36% — an improvement — DROPS `scamScore` from 45
to 42, because the old-token +10 bonus applies only while the pre-bonus
score is below 40. -/
theorem c8_scamScore_not_monotonic :
    P10.scamScore true true (some 51) (some 10000) (some 8640000000) = 45 ∧
    P10.scamScore true true (some 36) (some 10000) (some 8640000000) = 42 ∧
    (36 : ℚ) < 51 ∧ (42 : ℤ) < 45 := by
  refine ⟨by decide, by decide, by decide, by decide⟩

namespace V1

/-- The risk model of the first handler in `src/api/check.js`
(lines 295–318): inputs are the two authority flags and the top-10
percentage (`top10Pct`, a plain number there). -/
def riskScore (m f : Bool) (t : ℚ) : ℤ :=
  if !m && !f && decide (t ≤ 25) then 90
  else if !m && decide (t ≤ 60) then 65
  else 25

lemma riskScore_ge_25 (m f : Bool) (t : ℚ) : 25 ≤ riskScore m f t := by
  unfold riskScore
  split_ifs <;> omega

end V1

/-- C8 (amended). The three-branch composite model shared by the `check.js`
handlers and `part_003`/`part_004` IS monotone in each axis it reads:
holding the others fixed, removing the mint authority, removing the freeze
authority, or lowering the top-10 concentration never decreases the
returned score (liquidity tier and token age do not enter this model, so it
is trivially monotone in them); the `part_010` `scamScore`, however, is not
monotone in the concentration axis (see the counterexample). -/
theorem c8_base_model_monotonic (m₁ m₂ f₁ f₂ : Bool) (t₁ t₂ : ℚ)
    (hm : m₂ = true → m₁ = true) (hf : f₂ = true → f₁ = true)
    (ht : t₂ ≤ t₁) :
    V1.riskScore m₁ f₁ t₁ ≤ V1.riskScore m₂ f₂ t₂ := by
  unfold V1.riskScore
  by_cases hb1 : (!m₁ && !f₁ && decide (t₁ ≤ 25)) = true
  · have hparts := hb1
    rw [Bool.and_eq_true, Bool.and_eq_true] at hparts
    have hm1 : m₁ = false := by
      cases m₁
      · rfl
      · cases hparts.1.1
    have hf1 : f₁ = false := by
      cases f₁
      · rfl
      · cases hparts.1.2
    have ht1 : t₁ ≤ 25 := of_decide_eq_true hparts.2
    have hm2 : m₂ = false := by
      cases hm2' : m₂
      · rfl
      · rw [hm hm2'] at hm1
        cases hm1
    have hf2 : f₂ = false := by
      cases hf2' : f₂
      · rfl
      · rw [hf hf2'] at hf1
        cases hf1
    have hb2 : (!m₂ && !f₂ && decide (t₂ ≤ 25)) = true := by
      rw [hm2, hf2]
      simp only [Bool.not_false, Bool.true_and]
      exact decide_eq_true (le_trans ht ht1)
    rw [if_pos hb1, if_pos hb2]
  · rw [if_neg hb1]
    by_cases hb2 : (!m₁ && decide (t₁ ≤ 60)) = true
    · have hparts := hb2
      rw [Bool.and_eq_true] at hparts
      have hm1 : m₁ = false := by
        cases m₁
        · rfl
        · cases hparts.1
      have ht1 : t₁ ≤ 60 := of_decide_eq_true hparts.2
      have hm2 : m₂ = false := by
        cases hm2' : m₂
        · rfl
        · rw [hm hm2'] at hm1
          cases hm1
      rw [if_pos hb2]
      by_cases hc1 : (!m₂ && !f₂ && decide (t₂ ≤ 25)) = true
      · rw [if_pos hc1]
        omega
      · have hc2 : (!m₂ && decide (t₂ ≤ 60)) = true := by
          rw [hm2]
          simp only [Bool.not_false, Bool.true_and]
          exact decide_eq_true (le_trans ht ht1)
        rw [if_neg hc1, if_pos hc2]
    · rw [if_neg hb2]
      exact V1.riskScore_ge_25 m₂ f₂ t₂

/-- Witness for C8: an improvement from (mint and freeze active, 70%) to
(both gone, 20%) raises the score. -/
theorem c8_base_model_monotonic_witness :
    ((false = true → true = true) ∧ (false = true → true = true) ∧
      (20 : ℚ) ≤ 70) ∧
      V1.riskScore true true 70 ≤ V1.riskScore false false 20 :=
  ⟨⟨fun _ => rfl, fun _ => rfl, by decide⟩,
   c8_base_model_monotonic true false true false 70 20
     (fun _ => rfl) (fun _ => rfl) (by decide)⟩

/-- A JavaScript `number` that may be `NaN` (the DEX price can arrive as
`NaN` through `Number(pair.priceUsd)`). -/
inductive JsNum where
  | nan : JsNum
  | num (q : ℚ) : JsNum
  deriving DecidableEq, Repr

namespace P4

/-- The response state the stablecoin override of `part_004` lines 766–792
can see: the token metadata, origin hint, risk summary and price it
mutates, and — held abstract — the holder summary, token age and
liquidity-truth result it never touches. -/
structure ApiState (H A L : Type) where
  name : String
  symbol : String
  originLabel : String
  originDetail : String
  riskLevel : String
  riskScore : ℤ
  priceUsd : Option JsNum
  holderSummary : H
  tokenAge : A
  liquidityTruth : L
  deriving Repr

/-- The body of `if (stableConfig) { ... }` in `part_004` lines 768–792:
fill in a missing symbol, replace a missing or placeholder name, overwrite
the origin hint, force `level = "low"`/`score = 95`, and set the price to
exactly 1.0 when it is `null` or `NaN`. -/
def applyStableOverride {H A L : Type} (info : StableInfo)
    (s : ApiState H A L) : ApiState H A L :=
  { s with
    symbol := if s.symbol = "" then info.symbol else s.symbol,
    name := if s.name = "" ∨ s.name = "Unknown Token" then info.name else s.name,
    originLabel := "Known Solana stablecoin",
    originDetail := info.symbol ++
      " on Solana from a known centralized issuer. High holder concentration and active freeze authority are normal for this type of token.",
    riskLevel := "low",
    riskScore := 95,
    priceUsd := match s.priceUsd with
      | none => some (JsNum.num 1)
      | some JsNum.nan => some (JsNum.num 1)
      | some (JsNum.num q) => some (JsNum.num q) }

/-- The final stablecoin step of the `part_004` handler: apply the override
exactly when the mint is on the whitelist. -/
def finalizeStable {H A L : Type} (mint : String) (s : ApiState H A L) :
    ApiState H A L :=
  match stableLookup mint with
  | some info => applyStableOverride info s
  | none => s

end P4

/-- C10. For a whitelisted mint the override also mutates fields beyond
level/score: a `null` or `NaN` DEX price becomes exactly 1.0 (a present
numeric price is kept), the origin hint's label and detail are overwritten,
a missing token symbol and a missing or placeholder token name are filled
from the whitelist entry — while `holderSummary`, `tokenAge` and the
liquidity-authenticity result are left unchanged. -/
theorem c10_override_frame {H A L : Type} (mint : String)
    (info : P4.StableInfo) (s : P4.ApiState H A L)
    (hlk : P4.stableLookup mint = some info) :
    (P4.finalizeStable mint s).holderSummary = s.holderSummary ∧
    (P4.finalizeStable mint s).tokenAge = s.tokenAge ∧
    (P4.finalizeStable mint s).liquidityTruth = s.liquidityTruth ∧
    (P4.finalizeStable mint s).originLabel = "Known Solana stablecoin" ∧
    (P4.finalizeStable mint s).originDetail = info.symbol ++
      " on Solana from a known centralized issuer. High holder concentration and active freeze authority are normal for this type of token." ∧
    ((s.priceUsd = none ∨ s.priceUsd = some JsNum.nan) →
        (P4.finalizeStable mint s).priceUsd = some (JsNum.num 1)) ∧
    (∀ q : ℚ, s.priceUsd = some (JsNum.num q) →
        (P4.finalizeStable mint s).priceUsd = some (JsNum.num q)) ∧
    (s.symbol = "" → (P4.finalizeStable mint s).symbol = info.symbol) ∧
    ((s.name = "" ∨ s.name = "Unknown Token") →
        (P4.finalizeStable mint s).name = info.name) ∧
    (P4.finalizeStable mint s).riskLevel = "low" ∧
    (P4.finalizeStable mint s).riskScore = 95 := by
  simp only [P4.finalizeStable, hlk]
  refine ⟨rfl, rfl, rfl, rfl, rfl, ?_, ?_, ?_, ?_, rfl, rfl⟩
  · intro hp
    rcases hp with hp | hp <;>
      simp only [P4.applyStableOverride, hp]
  · intro q hp
    simp only [P4.applyStableOverride, hp]
  · intro hsym
    simp only [P4.applyStableOverride, hsym, if_pos]
  · intro hname
    simp only [P4.applyStableOverride, if_pos hname]

/-- Witness for C10 at the USDT whitelist address and a fully degenerate
state (no price, empty symbol, placeholder name). -/
theorem c10_override_frame_witness :
    P4.stableLookup "Es9vMFrzaCERmJfrF4H2FYD4KCoNkY11McCe8BenwNYB" =
      some { symbol := "USDT", name := "Tether USD (USDT)" } ∧
    ((P4.finalizeStable "Es9vMFrzaCERmJfrF4H2FYD4KCoNkY11McCe8BenwNYB"
        ({ name := "Unknown Token", symbol := "",
           originLabel := "Unknown protocol / origin", originDetail := "",
           riskLevel := "high", riskScore := 25, priceUsd := none,
           holderSummary := (7 : ℕ), tokenAge := (8 : ℕ),
           liquidityTruth := (9 : ℕ) } : P4.ApiState ℕ ℕ ℕ)).holderSummary = 7 ∧
     (P4.finalizeStable "Es9vMFrzaCERmJfrF4H2FYD4KCoNkY11McCe8BenwNYB"
        ({ name := "Unknown Token", symbol := "",
           originLabel := "Unknown protocol / origin", originDetail := "",
           riskLevel := "high", riskScore := 25, priceUsd := none,
           holderSummary := (7 : ℕ), tokenAge := (8 : ℕ),
           liquidityTruth := (9 : ℕ) } : P4.ApiState ℕ ℕ ℕ)).priceUsd =
       some (JsNum.num 1)) :=
  ⟨by decide,
   (c10_override_frame "Es9vMFrzaCERmJfrF4H2FYD4KCoNkY11McCe8BenwNYB"
      { symbol := "USDT", name := "Tether USD (USDT)" }
      ({ name := "Unknown Token", symbol := "",
         originLabel := "Unknown protocol / origin", originDetail := "",
         riskLevel := "high", riskScore := 25, priceUsd := none,
         holderSummary := (7 : ℕ), tokenAge := (8 : ℕ),
         liquidityTruth := (9 : ℕ) } : P4.ApiState ℕ ℕ ℕ)
      (by decide)).1,
   (c10_override_frame "Es9vMFrzaCERmJfrF4H2FYD4KCoNkY11McCe8BenwNYB"
      { symbol := "USDT", name := "Tether USD (USDT)" }
      ({ name := "Unknown Token", symbol := "",
         originLabel := "Unknown protocol / origin", originDetail := "",
         riskLevel := "high", riskScore := 25, priceUsd := none,
         holderSummary := (7 : ℕ), tokenAge := (8 : ℕ),
         liquidityTruth := (9 : ℕ) } : P4.ApiState ℕ ℕ ℕ)
      (by decide)).2.2.2.2.2.1 (Or.inl rfl)⟩
